import Mathlib

/-!
Verification development for the interp3d crate (src/lib.rs, src/utils.rs).

The Rust code is shallowly embedded: f64 is modelled as the real numbers,
Vec<f64> as List ℝ, usize indices as ℕ, isize offsets as ℤ, and the
fallible/panicking paths of setup as an Except value that carries the
state visible at the moment of the panic.  In-place loops over the data
vector are modelled as left folds over the exact index sequences the
source iterates.
-/

noncomputable section

namespace Interp3d

/-- Mirrors utils.rs Dir: direction selector. -/
inductive Dir where
  | X
  | Y
  | Z

/-- Mirrors utils.rs GridSpacing: Linear or Exponential(k). -/
inductive GridSpacing where
  | Linear
  | Exponential (k : ℝ)

/-- Mirrors utils.rs DataGenConfSingle: one axis's generation config. -/
structure DataGenConfSingle where
  n : ℕ
  min : ℝ
  max : ℝ
  spacing : GridSpacing

/-- Mirrors utils.rs DataGenConf: the three per-axis configs. -/
structure DataGenConf where
  x : DataGenConfSingle
  y : DataGenConfSingle
  z : DataGenConfSingle

/-- Mirrors utils.rs Type (renamed: Type is a Lean keyword): interpolation mode. -/
inductive InterpType where
  | BicubicUnilinear
  | Tricubic

/-- Mirrors lib.rs Interp3D.  tx, ty, tz are carried but never used by the
functions under study, exactly as in the source. -/
structure Interp3D where
  nx : ℕ
  ny : ℕ
  nz : ℕ
  x : List ℝ
  y : List ℝ
  z : List ℝ
  tx : ℝ × ℝ
  ty : ℝ × ℝ
  tz : ℝ × ℝ
  data : List ℝ

/-- Mirrors the derived Default instance of Interp3D (zeros and empty vectors). -/
def defaultI : Interp3D :=
  { nx := 0, ny := 0, nz := 0, x := [], y := [], z := [],
    tx := (0, 0), ty := (0, 0), tz := (0, 0), data := [] }

/-- Mirrors lib.rs Interp3D::index: row-major flattening of an (i,j,k) triple. -/
def Interp3D.index (s : Interp3D) (i j k : ℕ) : ℕ :=
  i * s.ny * s.nz + j * s.nz + k

/-- Row-major flattening with the axis sizes passed explicitly;
Interp3D.index s i j k = flatIdx s.ny s.nz (i, j, k) definitionally. -/
def flatIdx (ny nz : ℕ) (t : ℕ × ℕ × ℕ) : ℕ :=
  t.1 * ny * nz + t.2.1 * nz + t.2.2

theorem index_eq_flatIdx (s : Interp3D) (i j k : ℕ) :
    s.index i j k = flatIdx s.ny s.nz (i, j, k) := rfl

/-- Mirrors the body of lib.rs grid_point_pos for one axis config.  The
exponential branch transcribes the source exactly: the numerator is
exp(LN_2 * i / (n-4) * k) with NO "- 1" subtracted, and the normalizing
denominator is (conf.n as isize - 4), i.e. the configured count minus 4. -/
def posSingle (c : DataGenConfSingle) (i : ℤ) : ℝ :=
  match c.spacing with
  | GridSpacing.Exponential k =>
      if k ≠ 0 then
        c.min + (c.max - c.min) *
          Real.exp (Real.log 2 * (i : ℝ) / (((c.n : ℤ) - 4 : ℤ) : ℝ) * k) /
          ((2 : ℝ) ^ k - 1)
      else
        c.min + (c.max - c.min) * (i : ℝ) / (((c.n : ℤ) - 4 : ℤ) : ℝ)
  | GridSpacing.Linear =>
      c.min + (c.max - c.min) * (i : ℝ) / (((c.n : ℤ) - 4 : ℤ) : ℝ)

/-- Mirrors lib.rs grid_point_pos: select the axis config by direction, then
apply the spacing law. -/
def gridPointPos (dir : Dir) (i : ℤ) (conf : DataGenConf) : ℝ :=
  posSingle (match dir with
    | Dir.X => conf.x
    | Dir.Y => conf.y
    | Dir.Z => conf.z) i

/-- Mirrors one axis's portion of lib.rs setup: push grid_point_pos(i-1) for
i in 0..n+3, then overwrite slot 0 from slots 1,2, slot nx-2 from slots
nx-3, nx-4, and slot nx-1 from the freshly written slot nx-2 and slot nx-3. -/
def axisCoords (c : DataGenConfSingle) : List ℝ :=
  let nx := c.n + 3
  let l0 := (List.range nx).map fun i => posSingle c ((i : ℤ) - 1)
  let l1 := l0.set 0 (2 * l0.getD 1 0 - l0.getD 2 0)
  let l2 := l1.set (nx - 2) (2 * l1.getD (nx - 3) 0 - l1.getD (nx - 4) 0)
  l2.set (nx - 1) (2 * l2.getD (nx - 2) 0 - l2.getD (nx - 3) 0)

/-- Mirrors lib.rs setup.  The source first assigns nx, ny, nz, then panics
when any of them is below 2+3; the panic is modelled as Except.error carrying
the state at the moment of the panic (nx, ny, nz already updated, coordinate
and data vectors untouched) together with the panic message.  On the ok path
the three coordinate arrays and the zero-filled data vector are produced. -/
def setup (s : Interp3D) (conf : DataGenConf) : Except (Interp3D × String) Interp3D :=
  let s1 : Interp3D :=
    { s with nx := conf.x.n + 3, ny := conf.y.n + 3, nz := conf.z.n + 3 }
  if s1.nx < 2 + 3 ∨ s1.ny < 2 + 3 ∨ s1.nz < 2 + 3 then
    Except.error (s1, "Number of points too low (at least 2 per direction required)")
  else
    Except.ok { s1 with
      x := axisCoords conf.x, y := axisCoords conf.y, z := axisCoords conf.z,
      data := List.replicate (s1.nx * s1.ny * s1.nz) 0 }

/-- Boolean ok-test for the embedded Except results. -/
def isOkE {α : Type} : Except (Interp3D × String) α → Bool
  | Except.ok _ => true
  | Except.error _ => false

/-- State extractor: the interpolator after the call, also on the panic path
(the state a caller observes if the panic is caught). -/
def stateOf : Except (Interp3D × String) Interp3D → Interp3D
  | Except.ok s => s
  | Except.error p => p.1

/-- Callback-state extractor for the generate_data embedding. -/
def sndOf {σ : Type} : Except (Interp3D × String) (Interp3D × σ) → Option σ
  | Except.ok p => some p.2
  | Except.error _ => none

/-- Interpolator extractor for the generate_data embedding. -/
def fstOf {σ : Type} : Except (Interp3D × String) (Interp3D × σ) → Except (Interp3D × String) Interp3D
  | Except.ok p => Except.ok p.1
  | Except.error e => Except.error e

/-- Mirrors the i_temp computation in lib.rs set_data_outermost. -/
def clampI (nx i : ℕ) : ℕ :=
  if i = 0 then 1 else if i > nx - 3 then nx - 3 else i

/-- Mirrors the j_temp computation in lib.rs set_data_outermost.  The source
compares j_temp against self.nx - 3 (the x axis's bound) but assigns
self.ny - 3; this transcription preserves that exactly. -/
def clampJ (nx ny j : ℕ) : ℕ :=
  if j = 0 then 1 else if j > nx - 3 then ny - 3 else j

/-- Mirrors the k_temp computation in lib.rs set_data_outermost. -/
def clampK (nz k : ℕ) : ℕ :=
  if k = 0 then 1 else if k > nz - 3 then nz - 3 else k

/-- The (i_temp, j_temp, k_temp) triple of lib.rs set_data_outermost. -/
def clampT (nx ny nz : ℕ) (t : ℕ × ℕ × ℕ) : ℕ × ℕ × ℕ :=
  (clampI nx t.1, clampJ nx ny t.2.1, clampK nz t.2.2)

/-- The index triples visited by the nested 0..nx / 0..ny / 0..nz loops of
set_data_outermost, in source order. -/
def allTriples (nx ny nz : ℕ) : List (ℕ × ℕ × ℕ) :=
  (List.range nx).flatMap fun i =>
    (List.range ny).flatMap fun j =>
      (List.range nz).map fun k => (i, j, k)

/-- The index triples visited by the nested 1..nx-2 / 1..ny-2 / 1..nz-2 loops
of generate_data, in source order. -/
def interiorTriples (nx ny nz : ℕ) : List (ℕ × ℕ × ℕ) :=
  (List.range' 1 (nx - 3)).flatMap fun i =>
    (List.range' 1 (ny - 3)).flatMap fun j =>
      (List.range' 1 (nz - 3)).map fun k => (i, j, k)

/-- One iteration of the set_data_outermost loop body acting on the data
vector: compute the clamped triple, and when it differs from the visited
triple copy the clamped entry over the visited entry. -/
def outStep (nx ny nz : ℕ) (d : List ℝ) (t : ℕ × ℕ × ℕ) : List ℝ :=
  let t' := clampT nx ny nz t
  if t ≠ t' then d.set (flatIdx ny nz t) (d.getD (flatIdx ny nz t') 0) else d

/-- Mirrors lib.rs set_data_outermost: fold the loop body over every (i,j,k). -/
def Interp3D.set_data_outermost (s : Interp3D) : Interp3D :=
  { s with data := (allTriples s.nx s.ny s.nz).foldl (outStep s.nx s.ny s.nz) s.data }

/-- One iteration of the generate_data sampling loop.  The callback is the
purified form of the Rust FnMut closure: it takes its captured state σ and
the three coordinates and returns the sample together with the new state. -/
def gdStep {σ : Type} (f : σ → ℝ → ℝ → ℝ → ℝ × σ) (p : Interp3D × σ) (t : ℕ × ℕ × ℕ) :
    Interp3D × σ :=
  let r := f p.2 (p.1.x.getD t.1 0) (p.1.y.getD t.2.1 0) (p.1.z.getD t.2.2 0)
  ({ p.1 with data := p.1.data.set (p.1.index t.1 t.2.1 t.2.2) r.1 }, r.2)

/-- Mirrors lib.rs generate_data: setup, then sample every interior triple in
row-major order threading the callback state, then set_data_outermost. -/
def generate_data {σ : Type} (s : Interp3D) (f : σ → ℝ → ℝ → ℝ → ℝ × σ) (st : σ)
    (conf : DataGenConf) : Except (Interp3D × String) (Interp3D × σ) :=
  (setup s conf).map fun s1 =>
    let p := (interiorTriples s1.nx s1.ny s1.nz).foldl (gdStep f) (s1, st)
    (p.1.set_data_outermost, p.2)

/-- generate_data specialized to a pure sampling function (no captured
mutable state), the form used by the value-level claims. -/
def generate_dataP (s : Interp3D) (g : ℝ → ℝ → ℝ → ℝ) (conf : DataGenConf) :
    Except (Interp3D × String) Interp3D :=
  fstOf (generate_data s (fun (u : Unit) x y z => (g x y z, u)) () conf)

/-- When every axis has at least 2 nodes, setup succeeds and produces the
three coordinate arrays and the zero-filled data vector. -/
lemma setup_ok (s0 : Interp3D) (conf : DataGenConf)
    (h2x : 2 ≤ conf.x.n) (h2y : 2 ≤ conf.y.n) (h2z : 2 ≤ conf.z.n) :
    setup s0 conf = Except.ok
      { s0 with
          nx := conf.x.n + 3, ny := conf.y.n + 3, nz := conf.z.n + 3,
          x := axisCoords conf.x, y := axisCoords conf.y, z := axisCoords conf.z,
          data := List.replicate ((conf.x.n + 3) * (conf.y.n + 3) * (conf.z.n + 3)) 0 } := by
  have h : ¬(conf.x.n + 3 < 2 + 3 ∨ conf.y.n + 3 < 2 + 3 ∨ conf.z.n + 3 < 2 + 3) := by omega
  simp only [setup]
  rw [if_neg h]

/-- The concrete config of spec Scenario A on all three axes:
n = 5, min = 0, max = 10, Linear spacing. -/
def confC2 : DataGenConf :=
  ⟨⟨5, 0, 10, GridSpacing.Linear⟩, ⟨5, 0, 10, GridSpacing.Linear⟩,
   ⟨5, 0, 10, GridSpacing.Linear⟩⟩

/-- Evaluation of the x axis built for Scenario A's config: the denominator
n - 4 = 1 spreads the interior nodes 10 apart, not 2.5 apart. -/
lemma axisCoords_confC2 :
    axisCoords confC2.x = [-10, 0, 10, 20, 30, 40, 50, 60] := by
  have hr : List.range (5 + 3) = [0, 1, 2, 3, 4, 5, 6, 7] := rfl
  simp only [axisCoords, confC2, hr]
  norm_num [posSingle, List.getD_cons_zero, List.getD_cons_succ, List.set]

/-- C2: the spec's Scenario A fails on the code.  For n = 5, min = 0,
max = 10, Linear, the code builds interior nodes 0, 10, 20, 30, 40 with
ghost nodes -10, 50, 60 (spacing denominator conf.n - 4 = 1), not the
claimed 0, 2.5, 5, 7.5, 10 with ghosts -2.5, 12.5, 15: the second interior
node is 10, not 2.5. -/
theorem claim2_scenarioA_actual :
    (stateOf (setup defaultI confC2)).x = [-10, 0, 10, 20, 30, 40, 50, 60] ∧
    (stateOf (setup defaultI confC2)).x.getD 2 0 ≠ (2.5 : ℝ) := by
  have hx : (stateOf (setup defaultI confC2)).x = axisCoords confC2.x := by
    rw [setup_ok defaultI confC2 (by decide) (by decide) (by decide)]
    rfl
  rw [hx, axisCoords_confC2]
  norm_num

/-- A config whose x axis uses Exponential(1) spacing with n = 5, min = 0,
max = 10. -/
def confC3 : DataGenConf :=
  ⟨⟨5, 0, 10, GridSpacing.Exponential 1⟩, ⟨5, 0, 10, GridSpacing.Linear⟩,
   ⟨5, 0, 10, GridSpacing.Linear⟩⟩

/-- C3: the exponential spacing law of grid_point_pos does not subtract 1
from the exponential before scaling: at offset i = 0 with k = 1 it returns
min + (max-min) * exp(0) / (2^1 - 1) = 10, not min = 0 as the spec formula
(exp(...) - 1) / (2^k - 1) requires. -/
theorem claim3_exponential_shift :
    gridPointPos Dir.X 0 confC3 = 10 ∧ confC3.x.min = 0 ∧ (10 : ℝ) ≠ 0 := by
  refine ⟨?_, rfl, by norm_num⟩
  simp only [gridPointPos, posSingle, confC3]
  norm_num [Real.exp_zero, Real.rpow_one]

/-- A config with node count 1 (below the minimum of 2) on every axis. -/
def confLow : DataGenConf :=
  ⟨⟨1, 0, 1, GridSpacing.Linear⟩, ⟨1, 0, 1, GridSpacing.Linear⟩,
   ⟨1, 0, 1, GridSpacing.Linear⟩⟩

/-- C5 counterexample: on the invalid-config path the construction does NOT
leave the object untouched: the call fails (the source panics), and the
state visible at the panic already has nx = 4 even though the default
object had nx = 0, refuting "no field of the interpolator is modified on
the error path". -/
theorem claim5_partial_state :
    isOkE (setup defaultI confLow) = false ∧
    (stateOf (setup defaultI confLow)).nx = 4 ∧ defaultI.nx = 0 := by
  have h : setup defaultI confLow = Except.error
      ({ defaultI with nx := 4, ny := 4, nz := 4 },
       "Number of points too low (at least 2 per direction required)") := by
    simp only [setup, confLow, defaultI]
    norm_num
  rw [h]
  exact ⟨rfl, rfl, rfl⟩

/-- C5 amended: when any axis's node count is below 2, setup panics (an
abrupt abort, modelled as the error branch carrying the panic message, not
a recoverable ConfigError value); the panic happens before the coordinate
and data vectors are allocated, but after the nx, ny, nz fields have been
assigned, so those three fields are modified on the error path. -/
theorem claim5_panic_before_alloc (s0 : Interp3D) (conf : DataGenConf)
    (h : conf.x.n < 2 ∨ conf.y.n < 2 ∨ conf.z.n < 2) :
    setup s0 conf = Except.error
      ({ s0 with nx := conf.x.n + 3, ny := conf.y.n + 3, nz := conf.z.n + 3 },
       "Number of points too low (at least 2 per direction required)") := by
  have h' : conf.x.n + 3 < 2 + 3 ∨ conf.y.n + 3 < 2 + 3 ∨ conf.z.n + 3 < 2 + 3 := by omega
  simp only [setup]
  rw [if_pos h']

/-- Witness for claim5_panic_before_alloc at the concrete config with n = 1
on every axis. -/
theorem claim5_panic_before_alloc_w :
    setup defaultI confLow = Except.error
      ({ defaultI with nx := 1 + 3, ny := 1 + 3, nz := 1 + 3 },
       "Number of points too low (at least 2 per direction required)") :=
  claim5_panic_before_alloc defaultI confLow (Or.inl (by decide))

/-- A config with node count 2 (the documented minimum) on every axis. -/
def confC6 : DataGenConf :=
  ⟨⟨2, 0, 10, GridSpacing.Linear⟩, ⟨2, 0, 10, GridSpacing.Linear⟩,
   ⟨2, 0, 10, GridSpacing.Linear⟩⟩

/-- Evaluation of the x axis built for n = 2, min = 0, max = 10, Linear:
the spacing denominator conf.n - 4 = -2 is negative, so the sequence is
strictly decreasing. -/
lemma axisCoords_confC6 :
    axisCoords confC6.x = [5, 0, -5, -10, -15] := by
  have hr : List.range (2 + 3) = [0, 1, 2, 3, 4] := rfl
  simp only [axisCoords, confC6, hr]
  norm_num [posSingle, List.getD_cons_zero, List.getD_cons_succ, List.set]

/-- C6: the claimed invariant fails on the code for a valid axis config with
n = 2, min = 0 < 10 = max, Linear spacing: the built x coordinate array is
[5, 0, -5, -10, -15], which has the required length n + 3 = 5 but is
strictly decreasing, not strictly increasing (the spacing denominator
conf.n - 4 = -2 is negative). -/
theorem claim6_decreasing_at_n2 :
    (stateOf (setup defaultI confC6)).x = [5, 0, -5, -10, -15] ∧
    ¬ (stateOf (setup defaultI confC6)).x.Pairwise (· < ·) := by
  have hx : (stateOf (setup defaultI confC6)).x = axisCoords confC6.x := by
    rw [setup_ok defaultI confC6 (by decide) (by decide) (by decide)]
    rfl
  rw [hx, axisCoords_confC6]
  refine ⟨rfl, fun h => ?_⟩
  have h5 : (5 : ℝ) < 0 := (List.pairwise_cons.mp h).1 0 (by simp)
  norm_num at h5

/-- C8: Exponential(0) spacing is the very same formula as Linear spacing:
the source's match guard k != 0.0 fails for k = 0 and falls through to the
linear arm, so the two spacing laws agree exactly at every offset. -/
theorem claim8_exp_zero_is_linear (c : DataGenConfSingle) (i : ℤ)
    (h : c.spacing = GridSpacing.Exponential 0) :
    posSingle c i = posSingle { c with spacing := GridSpacing.Linear } i := by
  simp [posSingle, h]

/-- Witness for claim8_exp_zero_is_linear at n = 5, min = 0, max = 10,
offset 3. -/
theorem claim8_exp_zero_is_linear_w :
    posSingle ⟨5, 0, 10, GridSpacing.Exponential 0⟩ 3
      = posSingle ⟨5, 0, 10, GridSpacing.Linear⟩ 3 :=
  claim8_exp_zero_is_linear ⟨5, 0, 10, GridSpacing.Exponential 0⟩ 3 rfl

/-- A triple of node indices that lies inside the allocated lattice. -/
abbrev Valid (nx ny nz : ℕ) (t : ℕ × ℕ × ℕ) : Prop :=
  t.1 < nx ∧ t.2.1 < ny ∧ t.2.2 < nz

lemma decomposeNat (m r m' r' s : ℕ) (hr : r < s) (hr' : r' < s)
    (h : m * s + r = m' * s + r') : m = m' ∧ r = r' := by
  rw [mul_comm m s, mul_comm m' s] at h
  have hs : 0 < s := Nat.pos_of_ne_zero (by omega)
  have hrr : r = r' := by
    have := congrArg (· % s) h
    simpa [Nat.mul_add_mod, Nat.mod_eq_of_lt hr, Nat.mod_eq_of_lt hr'] using this
  subst hrr
  exact ⟨Nat.eq_of_mul_eq_mul_left hs (by omega), rfl⟩

lemma flatIdx_lt (nx ny nz : ℕ) (t : ℕ × ℕ × ℕ) (h : Valid nx ny nz t) :
    flatIdx ny nz t < nx * ny * nz := by
  obtain ⟨h1, h2, h3⟩ := h
  have e2 : (t.2.1 + 1) * nz ≤ ny * nz := Nat.mul_le_mul (by omega) (le_refl nz)
  have e1 : (t.1 + 1) * (ny * nz) ≤ nx * (ny * nz) := Nat.mul_le_mul (by omega) (le_refl _)
  calc flatIdx ny nz t = t.1 * ny * nz + t.2.1 * nz + t.2.2 := rfl
    _ < t.1 * ny * nz + (t.2.1 + 1) * nz := by
        have : t.2.1 * nz + t.2.2 < t.2.1 * nz + nz := by omega
        calc t.1 * ny * nz + t.2.1 * nz + t.2.2
            < t.1 * ny * nz + (t.2.1 * nz + nz) := by omega
          _ = t.1 * ny * nz + (t.2.1 + 1) * nz := by ring
    _ ≤ t.1 * ny * nz + ny * nz := by omega
    _ = (t.1 + 1) * (ny * nz) := by ring
    _ ≤ nx * (ny * nz) := e1
    _ = nx * ny * nz := by ring

lemma flatIdx_inj (nx ny nz : ℕ) (a b : ℕ × ℕ × ℕ) (ha : Valid nx ny nz a)
    (hb : Valid nx ny nz b) (h : flatIdx ny nz a = flatIdx ny nz b) : a = b := by
  rcases a with ⟨i, j, k⟩
  rcases b with ⟨i', j', k'⟩
  obtain ⟨a1, a2, a3⟩ := ha
  obtain ⟨b1, b2, b3⟩ := hb
  simp only [Valid] at a1 a2 a3 b1 b2 b3
  have h' : (i * ny + j) * nz + k = (i' * ny + j') * nz + k' := by
    have e : ∀ u v w : ℕ, u * ny * nz + v * nz + w = (u * ny + v) * nz + w := by
      intro u v w; ring
    rw [← e, ← e]; exact h
  obtain ⟨h12, h3⟩ := decomposeNat _ _ _ _ nz a3 b3 h'
  obtain ⟨h1, h2⟩ := decomposeNat _ _ _ _ ny a2 b2 h12
  simp [h1, h2, h3]

lemma mem_allTriples (nx ny nz : ℕ) (t : ℕ × ℕ × ℕ) :
    t ∈ allTriples nx ny nz ↔ Valid nx ny nz t := by
  rcases t with ⟨i, j, k⟩
  simp only [allTriples, Valid, List.mem_flatMap, List.mem_map, List.mem_range]
  constructor
  · rintro ⟨a, ha, b, hb, c, hc, he⟩
    rcases Prod.mk.injEq .. ▸ he with ⟨rfl, rfl, rfl⟩
    exact ⟨ha, hb, hc⟩
  · rintro ⟨h1, h2, h3⟩
    exact ⟨i, h1, j, h2, k, h3, rfl⟩

lemma mem_interiorTriples (nx ny nz : ℕ) (t : ℕ × ℕ × ℕ) :
    t ∈ interiorTriples nx ny nz ↔
      (1 ≤ t.1 ∧ t.1 < 1 + (nx - 3)) ∧ (1 ≤ t.2.1 ∧ t.2.1 < 1 + (ny - 3)) ∧
      (1 ≤ t.2.2 ∧ t.2.2 < 1 + (nz - 3)) := by
  rcases t with ⟨i, j, k⟩
  simp only [interiorTriples, List.mem_flatMap, List.mem_map, List.mem_range'_1]
  constructor
  · rintro ⟨a, ha, b, hb, c, hc, he⟩
    rcases Prod.mk.injEq .. ▸ he with ⟨rfl, rfl, rfl⟩
    exact ⟨ha, hb, hc⟩
  · rintro ⟨h1, h2, h3⟩
    exact ⟨i, h1, j, h2, k, h3, rfl⟩

lemma interior_valid (nx ny nz : ℕ) (h5x : 5 ≤ nx) (h5y : 5 ≤ ny) (h5z : 5 ≤ nz)
    (t : ℕ × ℕ × ℕ) (ht : t ∈ interiorTriples nx ny nz) : Valid nx ny nz t := by
  rw [mem_interiorTriples] at ht
  exact ⟨by omega, by omega, by omega⟩

lemma clampT_valid (nx ny nz : ℕ) (h5x : 5 ≤ nx) (h5y : 5 ≤ ny) (h5z : 5 ≤ nz)
    (t : ℕ × ℕ × ℕ) (ht : Valid nx ny nz t) : Valid nx ny nz (clampT nx ny nz t) := by
  obtain ⟨h1, h2, h3⟩ := ht
  refine ⟨?_, ?_, ?_⟩ <;> simp only [clampT, clampI, clampJ, clampK] <;>
    split_ifs <;> omega

lemma clampT_fix (nx ny nz : ℕ) (h5x : 5 ≤ nx) (h5y : 5 ≤ ny) (h5z : 5 ≤ nz)
    (t : ℕ × ℕ × ℕ) : clampT nx ny nz (clampT nx ny nz t) = clampT nx ny nz t := by
  rcases t with ⟨i, j, k⟩
  simp only [clampT, clampI, clampJ, clampK, Prod.mk.injEq]
  refine ⟨?_, ?_, ?_⟩ <;> split_ifs <;> omega

lemma getD_set_self (l : List ℝ) (i : ℕ) (a : ℝ) (h : i < l.length) :
    (l.set i a).getD i 0 = a := by
  rw [List.getD_eq_getElem _ _ (by simpa using h)]
  simp

lemma getD_set_ne (l : List ℝ) (i j : ℕ) (a : ℝ) (h : i ≠ j) :
    (l.set i a).getD j 0 = l.getD j 0 := by
  simp [List.getD, List.getElem?_set_ne h]

lemma getD_replicate_zero (N m : ℕ) : (List.replicate N (0 : ℝ)).getD m 0 = 0 := by
  induction N generalizing m with
  | zero => simp
  | succ n ih =>
    cases m with
    | zero => simp [List.replicate_succ]
    | succ m => simp [List.replicate_succ, List.getD_cons_succ, ih]

lemma foldl_set_length (F : List ℝ → (ℕ × ℕ × ℕ) → List ℝ)
    (hF : ∀ d t, (F d t).length = d.length) :
    ∀ (L : List (ℕ × ℕ × ℕ)) (d : List ℝ), (L.foldl F d).length = d.length := by
  intro L
  induction L with
  | nil => intro d; rfl
  | cons t L ih =>
    intro d
    simp only [List.foldl_cons]
    rw [ih, hF]

/-- The interior sampling fold writes value v t at slot flatIdx t, once per
listed triple: afterwards a valid slot holds v t when its triple was listed
and its previous content otherwise. -/
lemma fill_fold_getD (nx ny nz : ℕ) (v : ℕ × ℕ × ℕ → ℝ) :
    ∀ L : List (ℕ × ℕ × ℕ), (∀ u ∈ L, Valid nx ny nz u) →
    ∀ d : List ℝ, d.length = nx * ny * nz →
    ∀ t, Valid nx ny nz t →
    (L.foldl (fun d u => d.set (flatIdx ny nz u) (v u)) d).getD (flatIdx ny nz t) 0
      = if t ∈ L then v t else d.getD (flatIdx ny nz t) 0 := by
  intro L
  induction L with
  | nil => intro _ d _ t _; simp
  | cons u L ih =>
    intro hL d hd t ht
    have hu : Valid nx ny nz u := hL u (List.mem_cons_self u L)
    simp only [List.foldl_cons]
    rw [ih (fun w hw => hL w (List.mem_cons_of_mem _ hw)) _
      (by rw [List.length_set]; exact hd) t ht]
    by_cases htL : t ∈ L
    · simp [htL, List.mem_cons]
    · simp only [if_neg htL]
      by_cases htu : t = u
      · subst htu
        rw [getD_set_self _ _ _ (by rw [hd]; exact flatIdx_lt nx ny nz t ht)]
        simp [List.mem_cons]
      · have hne : flatIdx ny nz u ≠ flatIdx ny nz t :=
          fun he => htu (flatIdx_inj nx ny nz t u ht hu he.symm)
        rw [getD_set_ne _ _ _ _ hne]
        have hnotc : ¬ t ∈ u :: L := by simp [List.mem_cons, htu, htL]
        simp [hnotc]

/-- The boundary-propagation fold: afterwards a valid slot whose triple was
listed and is moved by the clamp holds the pre-fold content of its clamped
source slot; every other valid slot is unchanged.  The hypothesis hfix says
the working vector already agrees with the reference vector pre on every
clamp-fixed slot; it is preserved because the loop only ever writes to
slots whose triple the clamp moves, while every clamp image is clamp-fixed. -/
lemma out_fold_getD (nx ny nz : ℕ) (h5x : 5 ≤ nx) (h5y : 5 ≤ ny) (h5z : 5 ≤ nz)
    (pre : List ℝ) :
    ∀ L : List (ℕ × ℕ × ℕ), (∀ u ∈ L, Valid nx ny nz u) →
    ∀ d : List ℝ, d.length = nx * ny * nz →
    (∀ p, Valid nx ny nz p → clampT nx ny nz p = p →
      d.getD (flatIdx ny nz p) 0 = pre.getD (flatIdx ny nz p) 0) →
    ∀ t, Valid nx ny nz t →
    (L.foldl (outStep nx ny nz) d).getD (flatIdx ny nz t) 0
      = if t ∈ L ∧ t ≠ clampT nx ny nz t
        then pre.getD (flatIdx ny nz (clampT nx ny nz t)) 0
        else d.getD (flatIdx ny nz t) 0 := by
  intro L
  induction L with
  | nil => intro _ d _ _ t _; simp
  | cons u L ih =>
    intro hL d hd hfix t ht
    have hu : Valid nx ny nz u := hL u (List.mem_cons_self u L)
    have hcu : Valid nx ny nz (clampT nx ny nz u) := clampT_valid nx ny nz h5x h5y h5z u hu
    simp only [List.foldl_cons]
    by_cases hmove : u ≠ clampT nx ny nz u
    · -- the step writes pre[clamp u] into slot u
      have hstep : outStep nx ny nz d u
          = d.set (flatIdx ny nz u) (d.getD (flatIdx ny nz (clampT nx ny nz u)) 0) := by
        simp only [outStep, if_pos hmove]
      have hwrite : d.getD (flatIdx ny nz (clampT nx ny nz u)) 0
          = pre.getD (flatIdx ny nz (clampT nx ny nz u)) 0 :=
        hfix _ hcu (clampT_fix nx ny nz h5x h5y h5z u)
      have hd' : (outStep nx ny nz d u).length = nx * ny * nz := by
        rw [hstep, List.length_set]; exact hd
      have hfix' : ∀ p, Valid nx ny nz p → clampT nx ny nz p = p →
          (outStep nx ny nz d u).getD (flatIdx ny nz p) 0
            = pre.getD (flatIdx ny nz p) 0 := by
        intro p hp hpfix
        have hpu : p ≠ u := fun he => hmove (by rw [← he, hpfix])
        have hne : flatIdx ny nz u ≠ flatIdx ny nz p :=
          fun he => hpu (flatIdx_inj nx ny nz p u hp hu he.symm)
        rw [hstep, getD_set_ne _ _ _ _ hne]
        exact hfix p hp hpfix
      rw [ih (fun w hw => hL w (List.mem_cons_of_mem _ hw)) _ hd' hfix' t ht]
      by_cases htL : t ∈ L ∧ t ≠ clampT nx ny nz t
      · simp only [if_pos htL]
        have : t ∈ u :: L ∧ t ≠ clampT nx ny nz t :=
          ⟨List.mem_cons_of_mem _ htL.1, htL.2⟩
        simp only [if_pos this]
      · simp only [if_neg htL]
        by_cases htu : t = u
        · subst htu
          rw [hstep, getD_set_self _ _ _ (by rw [hd]; exact flatIdx_lt nx ny nz t ht),
            hwrite]
          have : t ∈ t :: L ∧ t ≠ clampT nx ny nz t := ⟨List.mem_cons_self t L, hmove⟩
          simp only [if_pos this]
        · have hne : flatIdx ny nz u ≠ flatIdx ny nz t :=
            fun he => htu (flatIdx_inj nx ny nz t u ht hu he.symm)
          rw [hstep, getD_set_ne _ _ _ _ hne]
          have : ¬ (t ∈ u :: L ∧ t ≠ clampT nx ny nz t) := by
            rintro ⟨hmem, hmv⟩
            rcases List.mem_cons.mp hmem with h | h
            · exact htu h
            · exact htL ⟨h, hmv⟩
          simp only [if_neg this]
    · -- the step does nothing
      have hstep : outStep nx ny nz d u = d := by
        simp only [outStep]
        rw [if_neg hmove]
      rw [hstep, ih (fun w hw => hL w (List.mem_cons_of_mem _ hw)) d hd hfix t ht]
      by_cases htL : t ∈ L ∧ t ≠ clampT nx ny nz t
      · rw [if_pos htL, if_pos ⟨List.mem_cons_of_mem _ htL.1, htL.2⟩]
      · have hnotc : ¬ (t ∈ u :: L ∧ t ≠ clampT nx ny nz t) := by
          rintro ⟨hmem, hmv⟩
          rcases List.mem_cons.mp hmem with h | h
          · subst h; exact hmv (not_ne_iff.mp hmove)
          · exact htL ⟨h, hmv⟩
        rw [if_neg htL, if_neg hnotc]

/-- The generate_data loop body with the interpolator's constant parts
(coordinate arrays and axis sizes) factored out: it acts on the data vector
and the callback state only. -/
def pairStep {σ : Type} (f : σ → ℝ → ℝ → ℝ → ℝ × σ) (xs ys zs : List ℝ) (ny nz : ℕ)
    (q : List ℝ × σ) (t : ℕ × ℕ × ℕ) : List ℝ × σ :=
  let r := f q.2 (xs.getD t.1 0) (ys.getD t.2.1 0) (zs.getD t.2.2 0)
  (q.1.set (flatIdx ny nz t) r.1, r.2)

/-- The sampling fold only ever touches the data field, so it is the
factored fold of pairStep on (data, state). -/
lemma gd_fold {σ : Type} (f : σ → ℝ → ℝ → ℝ → ℝ × σ) :
    ∀ (L : List (ℕ × ℕ × ℕ)) (p : Interp3D × σ),
    L.foldl (gdStep f) p
      = ({ p.1 with data :=
            (L.foldl (pairStep f p.1.x p.1.y p.1.z p.1.ny p.1.nz) (p.1.data, p.2)).1 },
         (L.foldl (pairStep f p.1.x p.1.y p.1.z p.1.ny p.1.nz) (p.1.data, p.2)).2) := by
  intro L
  induction L with
  | nil => intro p; rfl
  | cons t L ih =>
    intro p
    simp only [List.foldl_cons]
    rw [ih (gdStep f p t)]
    rfl

/-- With a pure sampling function the callback state is trivial and the
pairStep fold is the plain data fold. -/
lemma pair_fold_pure (g : ℝ → ℝ → ℝ → ℝ) (xs ys zs : List ℝ) (ny nz : ℕ) :
    ∀ (L : List (ℕ × ℕ × ℕ)) (d : List ℝ),
    L.foldl (pairStep (fun (u : Unit) x y z => (g x y z, u)) xs ys zs ny nz) (d, ())
      = (L.foldl (fun d t => d.set (flatIdx ny nz t)
          (g (xs.getD t.1 0) (ys.getD t.2.1 0) (zs.getD t.2.2 0))) d, ()) := by
  intro L
  induction L with
  | nil => intro d; rfl
  | cons t L ih =>
    intro d
    simp only [List.foldl_cons]
    exact ih _

/-- The value the completed pipeline is expected to hold at triple t: the
sample of the clamped triple when that clamped triple is interior, and the
never-written initial 0 otherwise. -/
def clampedVal (g : ℝ → ℝ → ℝ → ℝ) (conf : DataGenConf) (t : ℕ × ℕ × ℕ) : ℝ :=
  let nx := conf.x.n + 3
  let ny := conf.y.n + 3
  let nz := conf.z.n + 3
  let u := clampT nx ny nz t
  if u ∈ interiorTriples nx ny nz then
    g ((axisCoords conf.x).getD u.1 0) ((axisCoords conf.y).getD u.2.1 0)
      ((axisCoords conf.z).getD u.2.2 0)
  else 0

/-- Master characterization of generate_data with a pure sampling function:
it succeeds, builds the three coordinate arrays, and every valid slot of the
final data vector holds the clamped-triple sample dictated by the source's
interior loop followed by set_data_outermost (with its cross-axis clamp
comparison transcribed faithfully). -/
lemma generate_dataP_spec (s0 : Interp3D) (g : ℝ → ℝ → ℝ → ℝ) (conf : DataGenConf)
    (h2x : 2 ≤ conf.x.n) (h2y : 2 ≤ conf.y.n) (h2z : 2 ≤ conf.z.n) :
    isOkE (generate_dataP s0 g conf) = true ∧
    (stateOf (generate_dataP s0 g conf)).x = axisCoords conf.x ∧
    (stateOf (generate_dataP s0 g conf)).y = axisCoords conf.y ∧
    (stateOf (generate_dataP s0 g conf)).z = axisCoords conf.z ∧
    ∀ t : ℕ × ℕ × ℕ, Valid (conf.x.n + 3) (conf.y.n + 3) (conf.z.n + 3) t →
      (stateOf (generate_dataP s0 g conf)).data.getD
          (flatIdx (conf.y.n + 3) (conf.z.n + 3) t) 0 = clampedVal g conf t := by
  have h5x : 5 ≤ conf.x.n + 3 := by omega
  have h5y : 5 ≤ conf.y.n + 3 := by omega
  have h5z : 5 ≤ conf.z.n + 3 := by omega
  have hgen : generate_dataP s0 g conf = Except.ok
      { s0 with
          nx := conf.x.n + 3, ny := conf.y.n + 3, nz := conf.z.n + 3,
          x := axisCoords conf.x, y := axisCoords conf.y, z := axisCoords conf.z,
          data := (allTriples (conf.x.n + 3) (conf.y.n + 3) (conf.z.n + 3)).foldl
              (outStep (conf.x.n + 3) (conf.y.n + 3) (conf.z.n + 3))
              ((interiorTriples (conf.x.n + 3) (conf.y.n + 3) (conf.z.n + 3)).foldl
                (fun d t => d.set (flatIdx (conf.y.n + 3) (conf.z.n + 3) t)
                  (g ((axisCoords conf.x).getD t.1 0) ((axisCoords conf.y).getD t.2.1 0)
                     ((axisCoords conf.z).getD t.2.2 0)))
                (List.replicate ((conf.x.n + 3) * (conf.y.n + 3) * (conf.z.n + 3)) 0)) } := by
    unfold generate_dataP generate_data
    rw [setup_ok s0 conf h2x h2y h2z]
    simp only [Except.map]
    rw [gd_fold]
    dsimp only
    rw [pair_fold_pure]
    rfl
  refine ⟨by rw [hgen]; rfl, by rw [hgen]; rfl, by rw [hgen]; rfl, by rw [hgen]; rfl, ?_⟩
  intro t ht
  rw [hgen]
  simp only [stateOf]
  have hIntValid : ∀ u ∈ interiorTriples (conf.x.n + 3) (conf.y.n + 3) (conf.z.n + 3),
      Valid (conf.x.n + 3) (conf.y.n + 3) (conf.z.n + 3) u :=
    fun u hu => interior_valid _ _ _ h5x h5y h5z u hu
  have hfillLen : ((interiorTriples (conf.x.n + 3) (conf.y.n + 3) (conf.z.n + 3)).foldl
      (fun d t => d.set (flatIdx (conf.y.n + 3) (conf.z.n + 3) t)
        (g ((axisCoords conf.x).getD t.1 0) ((axisCoords conf.y).getD t.2.1 0)
           ((axisCoords conf.z).getD t.2.2 0)))
      (List.replicate ((conf.x.n + 3) * (conf.y.n + 3) * (conf.z.n + 3)) 0)).length
      = (conf.x.n + 3) * (conf.y.n + 3) * (conf.z.n + 3) := by
    rw [foldl_set_length _ (fun d t => List.length_set ..)]
    exact List.length_replicate ..
  have hfill : ∀ u, Valid (conf.x.n + 3) (conf.y.n + 3) (conf.z.n + 3) u →
      ((interiorTriples (conf.x.n + 3) (conf.y.n + 3) (conf.z.n + 3)).foldl
        (fun d t => d.set (flatIdx (conf.y.n + 3) (conf.z.n + 3) t)
          (g ((axisCoords conf.x).getD t.1 0) ((axisCoords conf.y).getD t.2.1 0)
             ((axisCoords conf.z).getD t.2.2 0)))
        (List.replicate ((conf.x.n + 3) * (conf.y.n + 3) * (conf.z.n + 3)) 0)).getD
        (flatIdx (conf.y.n + 3) (conf.z.n + 3) u) 0
      = if u ∈ interiorTriples (conf.x.n + 3) (conf.y.n + 3) (conf.z.n + 3) then
          g ((axisCoords conf.x).getD u.1 0) ((axisCoords conf.y).getD u.2.1 0)
            ((axisCoords conf.z).getD u.2.2 0)
        else 0 := by
    intro u hu
    rw [fill_fold_getD _ _ _ _ _ hIntValid _ (List.length_replicate ..) u hu]
    rw [getD_replicate_zero]
  rw [out_fold_getD _ _ _ h5x h5y h5z _ _
    (fun u hu => (mem_allTriples _ _ _ u).mp hu) _ hfillLen
    (fun p _ _ => rfl) t ht]
  by_cases hmv : t ≠ clampT (conf.x.n + 3) (conf.y.n + 3) (conf.z.n + 3) t
  · rw [if_pos ⟨(mem_allTriples _ _ _ t).mpr ht, hmv⟩,
      hfill _ (clampT_valid _ _ _ h5x h5y h5z t ht)]
    rfl
  · push_neg at hmv
    rw [if_neg (fun hc => hc.2 (by rw [← hmv]))]
    rw [hfill t ht]
    simp only [clampedVal]
    rw [← hmv]

/-- A config whose axes have DIFFERENT node counts, nx = 4 + 3 = 7 total on
x but ny = 2 + 3 = 5 total on y, exposing the cross-axis comparison in the
j clamp of set_data_outermost: the ghost index j = 3 satisfies
j > ny - 3 = 2 but not j > nx - 3 = 4, so it is never clamped. -/
def confC1 : DataGenConf :=
  ⟨⟨4, 0, 10, GridSpacing.Linear⟩, ⟨2, 0, 10, GridSpacing.Linear⟩,
   ⟨2, 0, 10, GridSpacing.Linear⟩⟩

/-- C1: the ghost-layer invariant fails on the code when the axes have
different node counts.  With confC1 and the constant sampling function 1,
the ghost node (1, 3, 1) (j = 3 is outside the y interior [1, 2]) should
hold the sample of its clamped source (1, 2, 1), which is 1; but because the
j clamp compares against nx - 3 = 4 instead of ny - 3 = 2, the ghost entry
is never copied and keeps its initial value 0. -/
theorem claim1_ghost_not_clamped :
    isOkE (generate_dataP defaultI (fun _ _ _ => (1 : ℝ)) confC1) = true ∧
    (stateOf (generate_dataP defaultI (fun _ _ _ => (1 : ℝ)) confC1)).data.getD 41 0 = 0 ∧
    (stateOf (generate_dataP defaultI (fun _ _ _ => (1 : ℝ)) confC1)).data.getD 36 0 = 1 := by
  obtain ⟨hok, hx, hy, hz, hdata⟩ :=
    generate_dataP_spec defaultI (fun _ _ _ => (1 : ℝ)) confC1
      (by decide) (by decide) (by decide)
  refine ⟨hok, ?_, ?_⟩
  · have e : flatIdx (confC1.y.n + 3) (confC1.z.n + 3) ((1 : ℕ), (3 : ℕ), (1 : ℕ)) = 41 := by
      decide
    have h := hdata (1, 3, 1) (by decide)
    rw [e] at h
    rw [h]
    simp only [clampedVal]
    rw [if_neg (by decide)]
  · have e : flatIdx (confC1.y.n + 3) (confC1.z.n + 3) ((1 : ℕ), (2 : ℕ), (1 : ℕ)) = 36 := by
      decide
    have h := hdata (1, 2, 1) (by decide)
    rw [e] at h
    rw [h]
    simp only [clampedVal]
    rw [if_pos (by decide)]

/-- A config whose y axis has more nodes than the x axis: nx = 2 + 3 = 5,
ny = 5 + 3 = 8.  The interior index j = 3 satisfies j > nx - 3 = 2, so the
buggy clamp maps it to ny - 3 = 5 and the propagation pass overwrites an
interior entry. -/
def confC4 : DataGenConf :=
  ⟨⟨2, 0, 10, GridSpacing.Linear⟩, ⟨5, 0, 10, GridSpacing.Linear⟩,
   ⟨2, 0, 10, GridSpacing.Linear⟩⟩

/-- C4: the interior entries are NOT preserved by the boundary pass when
the axes have different node counts.  With confC4 and the sampling function
f(x, y, z) = y, the interior node (1, 3, 1) should hold y_3 = 20, but the
boundary pass overwrites it with the entry of (1, 5, 1), i.e. y_5 = 40,
because the j clamp compares against nx - 3 instead of ny - 3. -/
theorem claim4_interior_overwritten :
    isOkE (generate_dataP defaultI (fun _ y _ => y) confC4) = true ∧
    (stateOf (generate_dataP defaultI (fun _ y _ => y) confC4)).data.getD 56 0 = 40 ∧
    (stateOf (generate_dataP defaultI (fun _ y _ => y) confC4)).y.getD 3 0 = 20 ∧
    (40 : ℝ) ≠ 20 := by
  obtain ⟨hok, hx, hy, hz, hdata⟩ :=
    generate_dataP_spec defaultI (fun _ y _ => y) confC4
      (by decide) (by decide) (by decide)
  have eY : axisCoords confC4.y = [-10, 0, 10, 20, 30, 40, 50, 60] := axisCoords_confC2
  refine ⟨hok, ?_, ?_, by norm_num⟩
  · have e : flatIdx (confC4.y.n + 3) (confC4.z.n + 3) ((1 : ℕ), (3 : ℕ), (1 : ℕ)) = 56 := by
      decide
    have h := hdata (1, 3, 1) (by decide)
    rw [e] at h
    rw [h]
    simp only [clampedVal]
    rw [if_pos (by decide)]
    have ec : clampT (confC4.x.n + 3) (confC4.y.n + 3) (confC4.z.n + 3)
        ((1 : ℕ), (3 : ℕ), (1 : ℕ)) = (1, 5, 1) := by decide
    rw [ec, eY]
    norm_num [List.getD_cons_succ, List.getD_cons_zero]
  · rw [hy, eY]
    norm_num [List.getD_cons_succ, List.getD_cons_zero]

/-- The flat indices written by the interior sampling loop of generate_data. -/
def fillAccesses (nx ny nz : ℕ) : List ℕ :=
  (interiorTriples nx ny nz).map (flatIdx ny nz)

/-- The flat indices touched by set_data_outermost: for every visited triple,
the written slot and the clamped source slot it reads. -/
def outAccesses (nx ny nz : ℕ) : List ℕ :=
  (allTriples nx ny nz).flatMap fun t =>
    [flatIdx ny nz t, flatIdx ny nz (clampT nx ny nz t)]

/-- C10: with every configured axis count at least 2 (total counts a+3, b+3,
c+3), every data-vector access performed by the sampling loop and by
set_data_outermost — including the reads at the clamped source triples —
lands strictly below the allocated length (a+3)(b+3)(c+3). -/
theorem claim10_accesses_in_bounds (a b c : ℕ) (h2a : 2 ≤ a) (h2b : 2 ≤ b) (h2c : 2 ≤ c) :
    ((fillAccesses (a + 3) (b + 3) (c + 3)).all
        fun v => decide (v < (a + 3) * (b + 3) * (c + 3))) = true ∧
    ((outAccesses (a + 3) (b + 3) (c + 3)).all
        fun v => decide (v < (a + 3) * (b + 3) * (c + 3))) = true := by
  have h5a : 5 ≤ a + 3 := by omega
  have h5b : 5 ≤ b + 3 := by omega
  have h5c : 5 ≤ c + 3 := by omega
  constructor
  · rw [List.all_eq_true]
    intro v hv
    simp only [fillAccesses, List.mem_map] at hv
    obtain ⟨t, ht, rfl⟩ := hv
    simpa using flatIdx_lt _ _ _ t (interior_valid _ _ _ h5a h5b h5c t ht)
  · rw [List.all_eq_true]
    intro v hv
    simp only [outAccesses, List.mem_flatMap] at hv
    obtain ⟨t, ht, hv⟩ := hv
    have htv := (mem_allTriples _ _ _ t).mp ht
    have hv' : v = flatIdx (b + 3) (c + 3) t ∨
        v = flatIdx (b + 3) (c + 3) (clampT (a + 3) (b + 3) (c + 3) t) := by
      simpa using hv
    rcases hv' with rfl | rfl
    · simpa using flatIdx_lt _ _ _ t htv
    · simpa using flatIdx_lt _ _ _ _ (clampT_valid _ _ _ h5a h5b h5c t htv)

/-- Witness for claim10_accesses_in_bounds at the minimal config a = b = c = 2. -/
theorem claim10_accesses_in_bounds_w :
    ((fillAccesses 5 5 5).all fun v => decide (v < 125)) = true ∧
    ((outAccesses 5 5 5).all fun v => decide (v < 125)) = true := by
  simpa using claim10_accesses_in_bounds 2 2 2 (by norm_num) (by norm_num) (by norm_num)

lemma length_flatMap_const {α β : Type} (l : List α) (f : α → List β) (m : ℕ)
    (h : ∀ a ∈ l, (f a).length = m) : (l.flatMap f).length = l.length * m := by
  induction l with
  | nil => simp
  | cons a l ih =>
    have ha := h a (List.mem_cons_self a l)
    have ih' := ih fun x hx => h x (List.mem_cons_of_mem a hx)
    simp only [List.flatMap_cons, List.length_append, List.length_cons, ha, ih']
    ring

/-- The callback-state component of the pairStep fold ignores the data
vector: it is the plain fold of the state transition over the triples. -/
lemma pair_fold_snd {σ : Type} (f : σ → ℝ → ℝ → ℝ → ℝ × σ) (xs ys zs : List ℝ) (ny nz : ℕ) :
    ∀ (L : List (ℕ × ℕ × ℕ)) (q : List ℝ × σ),
    (L.foldl (pairStep f xs ys zs ny nz) q).2
      = L.foldl (fun st t => (f st (xs.getD t.1 0) (ys.getD t.2.1 0) (zs.getD t.2.2 0)).2) q.2 := by
  intro L
  induction L with
  | nil => intro q; rfl
  | cons t L ih =>
    intro q
    simp only [List.foldl_cons]
    rw [ih]
    rfl

/-- Folding a count-and-record step appends one entry per list element. -/
lemma foldl_count_trace {α : Type} (cf : (ℕ × ℕ × ℕ) → α) :
    ∀ (L : List (ℕ × ℕ × ℕ)) (n0 : ℕ) (tr : List α),
    L.foldl (fun (st : ℕ × List α) t => (st.1 + 1, st.2 ++ [cf t])) (n0, tr)
      = (n0 + L.length, tr ++ L.map cf) := by
  intro L
  induction L with
  | nil => intro n0 tr; simp
  | cons t L ih =>
    intro n0 tr
    simp only [List.foldl_cons, ih, List.length_cons, List.map_cons]
    refine congrArg₂ Prod.mk (by omega) ?_
    simp

/-- The interior triples of a padded grid are the shifted row-major
enumeration of the configured index ranges. -/
lemma interiorTriples_eq (nX nY nZ : ℕ) :
    interiorTriples (nX + 3) (nY + 3) (nZ + 3)
      = (List.range nX).flatMap fun a =>
          (List.range nY).flatMap fun b =>
            (List.range nZ).map fun c => (a + 1, b + 1, c + 1) := by
  unfold interiorTriples
  have e : ∀ m : ℕ, m + 3 - 3 = m := fun m => by omega
  rw [e, e, e]
  simp only [List.range'_eq_map_range, List.flatMap_map, List.map_map]
  have hc : ∀ m : ℕ, 1 + m = m + 1 := fun m => Nat.add_comm 1 m
  simp only [Function.comp, hc]
  rfl

/-- C7: generate_data invokes the sampling callback exactly
conf.x.n * conf.y.n * conf.z.n times (the configured counts, ghosts
excluded) and in row-major order: instrumenting an arbitrary sampling
function g with a call counter and an argument recorder shows the final
count is the product and the recorded argument list is exactly the
row-major enumeration of the interior nodes, ascending i outermost, then j,
then k. -/
theorem claim7_call_count_order (conf : DataGenConf) (g : ℝ → ℝ → ℝ → ℝ)
    (h2x : 2 ≤ conf.x.n) (h2y : 2 ≤ conf.y.n) (h2z : 2 ≤ conf.z.n) :
    sndOf (generate_data defaultI
        (fun (p : ℕ × List (ℝ × ℝ × ℝ)) x y z => (g x y z, (p.1 + 1, p.2 ++ [(x, y, z)])))
        (0, []) conf)
      = some (conf.x.n * conf.y.n * conf.z.n,
          (List.range conf.x.n).flatMap fun a =>
            (List.range conf.y.n).flatMap fun b =>
              (List.range conf.z.n).map fun c =>
                ((axisCoords conf.x).getD (a + 1) 0, (axisCoords conf.y).getD (b + 1) 0,
                 (axisCoords conf.z).getD (c + 1) 0)) := by
  unfold generate_data
  rw [setup_ok defaultI conf h2x h2y h2z]
  simp only [Except.map]
  rw [gd_fold]
  dsimp only
  simp only [sndOf]
  rw [pair_fold_snd]
  dsimp only
  rw [foldl_count_trace fun t => ((axisCoords conf.x).getD t.1 0,
    (axisCoords conf.y).getD t.2.1 0, (axisCoords conf.z).getD t.2.2 0)]
  rw [interiorTriples_eq]
  refine congrArg some (congrArg₂ Prod.mk ?_ ?_)
  · rw [Nat.zero_add]
    rw [length_flatMap_const _ _ (conf.y.n * conf.z.n) fun a _ => ?_, List.length_range]
    · ring
    · rw [length_flatMap_const _ _ conf.z.n fun x hx => by simp, List.length_range]
  · simp only [List.map_flatMap, List.map_map, List.nil_append]
    rfl

/-- Witness for claim7_call_count_order: the minimal valid config (n = 2 on
every axis) with the constant-zero sampling function. -/
theorem claim7_call_count_order_w :
    sndOf (generate_data defaultI
        (fun (p : ℕ × List (ℝ × ℝ × ℝ)) x y z => ((0 : ℝ), (p.1 + 1, p.2 ++ [(x, y, z)])))
        (0, []) confC6)
      = some (confC6.x.n * confC6.y.n * confC6.z.n,
          (List.range confC6.x.n).flatMap fun a =>
            (List.range confC6.y.n).flatMap fun b =>
              (List.range confC6.z.n).map fun c =>
                ((axisCoords confC6.x).getD (a + 1) 0, (axisCoords confC6.y).getD (b + 1) 0,
                 (axisCoords confC6.z).getD (c + 1) 0)) :=
  claim7_call_count_order confC6 (fun _ _ _ => 0) (by decide) (by decide) (by decide)

/-- Modelled from the spec: the repository never implements the Evaluator
(spec section 9 lists it as an open question), so the following evaluator
definitions up to interpolate are taken from spec section 4.4: a cubic
Hermite polynomial in the local parameter t with tangents estimated by
finite differences over the actual non-uniform neighbor spacing. -/
def hermite (y0 y1 m0 m1 t : ℝ) : ℝ :=
  (2 * t ^ 3 - 3 * t ^ 2 + 1) * y0 + (t ^ 3 - 2 * t ^ 2 + t) * m0 +
    (-2 * t ^ 3 + 3 * t ^ 2) * y1 + (t ^ 3 - t ^ 2) * m1

/-- Modelled from the spec: 1D cubic interpolation on the 4-node stencil
xm1 < x0 < x1 < x2 with samples ym1, y0, y1, y2, evaluated at q in the cell
[x0, x1]; t = (q - x0) / (x1 - x0), slopes by centered finite differences
scaled to the cell width. -/
def cubic1D (xm1 x0 x1 x2 ym1 y0 y1 y2 q : ℝ) : ℝ :=
  hermite y0 y1 ((y1 - ym1) / (x1 - xm1) * (x1 - x0)) ((y2 - y0) / (x2 - x0) * (x1 - x0))
    ((q - x0) / (x1 - x0))

/-- Modelled from the spec: plain linear interpolation between the two
bracketing nodes, used on the designated linear axis of BicubicUnilinear. -/
def linear1D (x0 x1 y0 y1 q : ℝ) : ℝ :=
  y0 + (y1 - y0) * ((q - x0) / (x1 - x0))

/-- Modelled from the spec: cell location on one axis — the index m of the
interval [node m, node m+1] containing q, realized as the number of leading
coordinates that are at most q, minus one (the functional result of the
binary search the spec prescribes). -/
def locate (xs : List ℝ) (q : ℝ) : ℕ :=
  (xs.takeWhile fun v => decide (v ≤ q)).length - 1

/-- The stored sample at node (i, j, k). -/
def sample (s : Interp3D) (i j k : ℕ) : ℝ :=
  s.data.getD (s.index i j k) 0

/-- Modelled from the spec: cubic interpolation along z at fixed x-index a
and y-index b, cell mz. -/
def zCubic (s : Interp3D) (a b mz : ℕ) (qz : ℝ) : ℝ :=
  cubic1D (s.z.getD (mz - 1) 0) (s.z.getD mz 0) (s.z.getD (mz + 1) 0) (s.z.getD (mz + 2) 0)
    (sample s a b (mz - 1)) (sample s a b mz) (sample s a b (mz + 1)) (sample s a b (mz + 2)) qz

/-- Modelled from the spec: linear interpolation along z (the designated
linear axis of BicubicUnilinear) at fixed x-index a and y-index b. -/
def zLinear (s : Interp3D) (a b mz : ℕ) (qz : ℝ) : ℝ :=
  linear1D (s.z.getD mz 0) (s.z.getD (mz + 1) 0) (sample s a b mz) (sample s a b (mz + 1)) qz

/-- Modelled from the spec: cubic along y of the cubic-along-z line values,
at fixed x-index a. -/
def yCubicT (s : Interp3D) (a my mz : ℕ) (qy qz : ℝ) : ℝ :=
  cubic1D (s.y.getD (my - 1) 0) (s.y.getD my 0) (s.y.getD (my + 1) 0) (s.y.getD (my + 2) 0)
    (zCubic s a (my - 1) mz qz) (zCubic s a my mz qz) (zCubic s a (my + 1) mz qz)
    (zCubic s a (my + 2) mz qz) qy

/-- Modelled from the spec: cubic along y of the linear-along-z line values,
at fixed x-index a. -/
def yCubicB (s : Interp3D) (a my mz : ℕ) (qy qz : ℝ) : ℝ :=
  cubic1D (s.y.getD (my - 1) 0) (s.y.getD my 0) (s.y.getD (my + 1) 0) (s.y.getD (my + 2) 0)
    (zLinear s a (my - 1) mz qz) (zLinear s a my mz qz) (zLinear s a (my + 1) mz qz)
    (zLinear s a (my + 2) mz qz) qy

/-- Modelled from the spec: tricubic tensor product — cubic along x of the
yCubicT values. -/
def xCubicT (s : Interp3D) (mx my mz : ℕ) (qx qy qz : ℝ) : ℝ :=
  cubic1D (s.x.getD (mx - 1) 0) (s.x.getD mx 0) (s.x.getD (mx + 1) 0) (s.x.getD (mx + 2) 0)
    (yCubicT s (mx - 1) my mz qy qz) (yCubicT s mx my mz qy qz)
    (yCubicT s (mx + 1) my mz qy qz) (yCubicT s (mx + 2) my mz qy qz) qx

/-- Modelled from the spec: bicubic-unilinear tensor product — cubic along x
of the yCubicB values. -/
def xCubicB (s : Interp3D) (mx my mz : ℕ) (qx qy qz : ℝ) : ℝ :=
  cubic1D (s.x.getD (mx - 1) 0) (s.x.getD mx 0) (s.x.getD (mx + 1) 0) (s.x.getD (mx + 2) 0)
    (yCubicB s (mx - 1) my mz qy qz) (yCubicB s mx my mz qy qz)
    (yCubicB s (mx + 1) my mz qy qz) (yCubicB s (mx + 2) my mz qy qz) qx

/-- Modelled from the spec: the evaluator — reject queries outside the
interior-covered span [node 1, node (n-2)] on any axis with a DomainError
naming the axis, then locate the cell on each axis and combine the stencil
by the tensor-product scheme of the selected mode. -/
def interpolate (s : Interp3D) (mode : InterpType) (qx qy qz : ℝ) : Except String ℝ :=
  if qx < s.x.getD 1 0 ∨ s.x.getD (s.nx - 2) 0 < qx then Except.error "DomainError: x"
  else if qy < s.y.getD 1 0 ∨ s.y.getD (s.ny - 2) 0 < qy then Except.error "DomainError: y"
  else if qz < s.z.getD 1 0 ∨ s.z.getD (s.nz - 2) 0 < qz then Except.error "DomainError: z"
  else Except.ok (match mode with
    | InterpType.Tricubic => xCubicT s (locate s.x qx) (locate s.y qy) (locate s.z qz) qx qy qz
    | InterpType.BicubicUnilinear =>
        xCubicB s (locate s.x qx) (locate s.y qy) (locate s.z qz) qx qy qz)

lemma cubic1D_knot (xm1 x0 x1 x2 ym1 y0 y1 y2 : ℝ) :
    cubic1D xm1 x0 x1 x2 ym1 y0 y1 y2 x0 = y0 := by
  simp only [cubic1D, hermite, sub_self, zero_div]
  ring

lemma linear1D_knot (x0 x1 y0 y1 : ℝ) : linear1D x0 x1 y0 y1 x0 = y0 := by
  simp only [linear1D, sub_self, zero_div]
  ring

lemma pairwise_getD_lt (l : List ℝ) (h : l.Pairwise (· < ·)) (a b : ℕ) (hab : a < b)
    (hb : b < l.length) : l.getD a 0 < l.getD b 0 := by
  have ha : a < l.length := lt_trans hab hb
  rw [List.getD_eq_getElem _ _ (by simpa using ha), List.getD_eq_getElem _ _ (by simpa using hb)]
  exact List.pairwise_iff_get.mp h ⟨a, ha⟩ ⟨b, hb⟩ hab

lemma length_takeWhile_eq (p : ℝ → Bool) :
    ∀ (l : List ℝ) (m : ℕ), m ≤ l.length →
    (∀ a, a < m → p (l.getD a 0) = true) →
    (m < l.length → p (l.getD m 0) = false) →
    (l.takeWhile p).length = m := by
  intro l
  induction l with
  | nil =>
    intro m hm _ _
    simp only [List.length_nil] at hm
    simp only [List.takeWhile_nil, List.length_nil]
    omega
  | cons x xs ih =>
    intro m hm h1 h2
    cases m with
    | zero =>
      have hx : p x = false := by simpa using h2 (by simp)
      simp [List.takeWhile_cons, hx]
    | succ m =>
      have hx : p x = true := by simpa using h1 0 (Nat.succ_pos m)
      have hm' : m ≤ xs.length := by simpa using hm
      have h1' : ∀ a, a < m → p (xs.getD a 0) = true := fun a ha => by
        simpa using h1 (a + 1) (by omega)
      have h2' : m < xs.length → p (xs.getD m 0) = false := fun hlt => by
        simpa using h2 (by simpa using Nat.succ_lt_succ hlt)
      simp [List.takeWhile_cons, hx, ih m hm' h1' h2']

/-- On a strictly increasing axis, locating the exact coordinate of node i
returns i, provided node i + 1 exists. -/
lemma locate_node (l : List ℝ) (hPW : l.Pairwise (· < ·)) (i : ℕ) (hi : i + 1 < l.length) :
    locate l (l.getD i 0) = i := by
  unfold locate
  rw [length_takeWhile_eq _ l (i + 1) (by omega) ?pos ?neg]
  · omega
  case pos =>
    intro a ha
    simp only [decide_eq_true_eq]
    rcases Nat.lt_succ_iff_lt_or_eq.mp ha with hlt | he
    · exact le_of_lt (pairwise_getD_lt l hPW a i hlt (by omega))
    · rw [he]
  case neg =>
    intro _
    simp only [decide_eq_false_iff_not, not_le]
    exact pairwise_getD_lt l hPW i (i + 1) (by omega) hi

/-- A node with interior index is inside the interior-covered span of a
strictly increasing axis. -/
lemma axis_node_in_span (l : List ℝ) (n : ℕ) (hl : l.length = n) (hp : l.Pairwise (· < ·))
    (h5 : 5 ≤ n) (i : ℕ) (h1 : 1 ≤ i) (h2 : i ≤ n - 3) :
    ¬(l.getD i 0 < l.getD 1 0 ∨ l.getD (n - 2) 0 < l.getD i 0) := by
  push_neg
  constructor
  · rcases eq_or_lt_of_le h1 with he | hlt
    · rw [← he]
    · exact le_of_lt (pairwise_getD_lt l hp 1 i hlt (by omega))
  · exact le_of_lt (pairwise_getD_lt l hp i (n - 2) (by omega) (by omega))

/-- C9: at any interior grid node, the interpolator reproduces the stored
sample exactly, under both Tricubic and BicubicUnilinear modes — the local
parameter t is 0 at the node, so every Hermite and linear factor collapses
to the bracketing value and the tensor product returns the sample itself. -/
theorem claim9_node_reproduction (s : Interp3D) (mode : InterpType) (i j k : ℕ)
    (hlx : s.x.length = s.nx) (hly : s.y.length = s.ny) (hlz : s.z.length = s.nz)
    (hpx : s.x.Pairwise (· < ·)) (hpy : s.y.Pairwise (· < ·)) (hpz : s.z.Pairwise (· < ·))
    (h5x : 5 ≤ s.nx) (h5y : 5 ≤ s.ny) (h5z : 5 ≤ s.nz)
    (hi1 : 1 ≤ i) (hi2 : i ≤ s.nx - 3) (hj1 : 1 ≤ j) (hj2 : j ≤ s.ny - 3)
    (hk1 : 1 ≤ k) (hk2 : k ≤ s.nz - 3) :
    interpolate s mode (s.x.getD i 0) (s.y.getD j 0) (s.z.getD k 0)
      = Except.ok (sample s i j k) := by
  unfold interpolate
  rw [if_neg (axis_node_in_span s.x s.nx hlx hpx h5x i hi1 hi2)]
  rw [if_neg (axis_node_in_span s.y s.ny hly hpy h5y j hj1 hj2)]
  rw [if_neg (axis_node_in_span s.z s.nz hlz hpz h5z k hk1 hk2)]
  have hlocx : locate s.x (s.x.getD i 0) = i :=
    locate_node s.x hpx i (by rw [hlx]; omega)
  have hlocy : locate s.y (s.y.getD j 0) = j :=
    locate_node s.y hpy j (by rw [hly]; omega)
  have hlocz : locate s.z (s.z.getD k 0) = k :=
    locate_node s.z hpz k (by rw [hlz]; omega)
  rw [hlocx, hlocy, hlocz]
  cases mode with
  | Tricubic =>
    show Except.ok (xCubicT s i j k (s.x.getD i 0) (s.y.getD j 0) (s.z.getD k 0)) = _
    unfold xCubicT
    rw [cubic1D_knot]
    unfold yCubicT
    rw [cubic1D_knot]
    unfold zCubic
    rw [cubic1D_knot]
  | BicubicUnilinear =>
    show Except.ok (xCubicB s i j k (s.x.getD i 0) (s.y.getD j 0) (s.z.getD k 0)) = _
    unfold xCubicB
    rw [cubic1D_knot]
    unfold yCubicB
    rw [cubic1D_knot]
    unfold zLinear
    rw [linear1D_knot]

/-- A concrete populated interpolator: a 5-node axis [0, 1, 2, 3, 4] on all
three directions with every sample equal to 7. -/
def gridW : Interp3D :=
  { nx := 5, ny := 5, nz := 5, x := [0, 1, 2, 3, 4], y := [0, 1, 2, 3, 4],
    z := [0, 1, 2, 3, 4], tx := (0, 0), ty := (0, 0), tz := (0, 0),
    data := List.replicate 125 7 }

/-- Witness for claim9_node_reproduction at gridW, Tricubic mode, node
(1, 1, 1). -/
theorem claim9_node_reproduction_w :
    interpolate gridW InterpType.Tricubic (gridW.x.getD 1 0) (gridW.y.getD 1 0)
        (gridW.z.getD 1 0) = Except.ok (sample gridW 1 1 1) :=
  claim9_node_reproduction gridW InterpType.Tricubic 1 1 1 rfl rfl rfl
    (by norm_num [gridW, List.pairwise_cons]) (by norm_num [gridW, List.pairwise_cons])
    (by norm_num [gridW, List.pairwise_cons])
    (by norm_num [gridW]) (by norm_num [gridW]) (by norm_num [gridW])
    (by norm_num) (by norm_num [gridW]) (by norm_num) (by norm_num [gridW])
    (by norm_num) (by norm_num [gridW])

end Interp3d
